import Mathlib

/-!
Verification of the `brave_sync::storage::ObjectMap` component
(`components/brave_sync/object_map.cc` in the repository sources).

The development shallowly embeds the ObjectMap operations:

* the underlying leveldb store is a partial map from byte-string keys to
  byte-string values (`Store`); `Get`/`Put`/`Delete` always succeed at the
  engine level, which matches the success paths the specification's
  properties quantify over;
* the category enum `ObjectMap::Type` becomes `ObjType`;
* the JSON reader/writer (`base::JSONReader` / `base::JSONWriter`, an
  external collaborator per the specification) is modelled by an executable
  recursive-descent parser `parseJson` and by the list serializer
  `SerializeList`;
* C++ undefined behaviour (dereferencing the null result of
  `base::Value::FindKey`, calling `GetString`/`GetList` on a value of the
  wrong type) is made explicit: functions that can hit it return an
  `Option`/a `crash` constructor, where `none`/`.crash` marks the UB.

Debug-only `DCHECK`s are noted in comments; the embedding follows the
release-build control flow, which is what the statements below are about.
-/

/-- Embeds `ObjectMap::Type` (object_map.h): the category namespace of a
local id. -/
inductive ObjType where
  | Unset
  | Bookmark
  | History
deriving DecidableEq

/-- Embeds `ObjectMap::NotSyncedRecordsOperation`. -/
inductive NotSyncedRecordsOperation where
  | GetItems
  | AddItems
  | DeleteItems
deriving DecidableEq

/-- The underlying leveldb key/value store: a partial map over byte
strings. -/
def Store : Type := String → Option String

/-- `leveldb::DB::Put` (always `ok` in this model). -/
def Store.put (st : Store) (k v : String) : Store :=
  fun x => if x = k then some v else st x

/-- `leveldb::DB::Delete` (always `ok`; deleting a missing key is `ok` in
leveldb as well). -/
def Store.del (st : Store) (k : String) : Store :=
  fun x => if x = k then none else st x

/-- A freshly created (empty) database. -/
def emptyStore : Store := fun _ => none

/-- Embeds `ObjectMap::ComposeRawLocalId` (object_map.cc): prefix the
local id with the category tag character; the `default: NOTREACHED()` arm
is unreachable because the enum is closed. -/
def ComposeRawLocalId : ObjType → String → String
  | .Unset, local_id => local_id
  | .Bookmark, local_id => "b" ++ local_id
  | .History, local_id => "h" ++ local_id

/-- Embeds `ObjectMap::SplitRawLocalId` (object_map.cc): an empty input
decodes to `("", Unset)`; a first byte `'b'`/`'h'` selects the category and
the rest is the local id; any other first byte leaves the whole string as
the local id with category `Unset`. -/
def SplitRawLocalId (raw_local_id : String) : String × ObjType :=
  match raw_local_id.data with
  | [] => ("", .Unset)
  | c :: rest =>
    if c = 'b' then (String.mk rest, .Bookmark)
    else if c = 'h' then (String.mk rest, .History)
    else (raw_local_id, .Unset)

/-- The side condition under which composing and splitting a raw key
round-trips: for `Unset` the local id must not begin with a category tag
byte (`'b'`/`'h'`); the tagged categories always round-trip. -/
def splitComposeCompatible (c : ObjType) (s : String) : Bool :=
  match c, s.data with
  | .Unset, ch :: _ => !(ch = 'b' || ch = 'h')
  | _, _ => true

/-! ### The JSON value library

The specification treats the in-process JSON library (`base::JSONReader`,
`base::JSONWriter`, `base::Value`) as an external collaborator ("assume an
available library that parses/serializes a JSON value and returns a
well-defined list/object tree").  It is modelled here by an executable
JSON tree, a recursive-descent RFC-style parser and a writer for lists of
strings.  Numbers are kept as their source text (no numeric claim depends
on them). -/

/-- A parsed JSON value (`base::Value`). -/
inductive JValue where
  | str (s : String)
  | num (s : String)
  | bool (b : Bool)
  | null
  | list (xs : List JValue)
  | dict (kvs : List (String × JValue))

/-- The `\x7b` character (left curly bracket). -/
def lbrace : Char := '\x7b'

/-- The `\x7d` character (right curly bracket). -/
def rbrace : Char := '\x7d'

/-- JSON insignificant whitespace. -/
def isWsChar (c : Char) : Bool :=
  c = ' ' || c = '\t' || c = '\n' || c = '\r'

/-- Skip insignificant whitespace. -/
def skipWs (cs : List Char) : List Char :=
  cs.dropWhile isWsChar

/-- Hexadecimal digit value. -/
def hexVal (c : Char) : Option Nat :=
  if '0' ≤ c ∧ c ≤ '9' then some (c.toNat - 48)
  else if 'a' ≤ c ∧ c ≤ 'f' then some (c.toNat - 87)
  else if 'A' ≤ c ∧ c ≤ 'F' then some (c.toNat - 55)
  else none

/-- Single-character JSON string escapes. -/
def escChar (c : Char) : Option Char :=
  if c = '"' then some '"'
  else if c = '\\' then some '\\'
  else if c = '/' then some '/'
  else if c = 'b' then some (Char.ofNat 8)
  else if c = 'f' then some (Char.ofNat 12)
  else if c = 'n' then some '\n'
  else if c = 'r' then some '\r'
  else if c = 't' then some '\t'
  else none

/-- Scan the body of a JSON string literal (the opening quote already
consumed), handling backslash escapes; returns the decoded characters and
the remaining input after the closing quote. -/
def scanStr : List Char → Option (List Char × List Char)
  | [] => none
  | c :: rest =>
    if c = '"' then some ([], rest)
    else if c = '\\' then
      match rest with
      | [] => none
      | e :: rest2 =>
        if e = 'u' then
          match rest2 with
          | h1 :: h2 :: h3 :: h4 :: rest3 =>
            match hexVal h1, hexVal h2, hexVal h3, hexVal h4 with
            | some a, some b, some c2, some d =>
              let n := ((a * 16 + b) * 16 + c2) * 16 + d
              if n < 55296 ∨ (57344 ≤ n ∧ n < 1114112) then
                match scanStr rest3 with
                | some (s, r) => some (Char.ofNat n :: s, r)
                | none => none
              else none
            | _, _, _, _ => none
          | _ => none
        else
          match escChar e with
          | some d =>
            match scanStr rest2 with
            | some (s, r) => some (d :: s, r)
            | none => none
          | none => none
    else
      match scanStr rest with
      | some (s, r) => some (c :: s, r)
      | none => none

/-- Characters that may continue a JSON number token (the number grammar
is scanned greedily; no claim depends on numeric payloads). -/
def isNumChar (c : Char) : Bool :=
  c.isDigit || c = '-' || c = '+' || c = '.' || c = 'e' || c = 'E'

/-- Match an expected literal tail (`rue`, `alse`, `ull`). -/
def expectLit : List Char → List Char → Option (List Char)
  | [], cs => some cs
  | _ :: _, [] => none
  | e :: es, c :: cs => if c = e then expectLit es cs else none

/-- Parser mode: a value, the element loop of an array, or the member loop
of an object (with the accumulated prefix). -/
inductive PMode where
  | pval
  | pelems (acc : List JValue)
  | pmembs (acc : List (String × JValue))

/-- Fuel-indexed recursive-descent JSON parser; the fuel bounds the
recursion and is chosen large enough at the top entry (`parseJson`) that
it never causes a failure on inputs of the given length. -/
def parseF : Nat → PMode → List Char → Option (JValue × List Char)
  | 0, _, _ => none
  | Nat.succ fuel, mode, cs =>
    match mode with
    | .pval =>
      match skipWs cs with
      | [] => none
      | c :: rest =>
        if c = '"' then
          match scanStr rest with
          | some (s, r) => some (.str (String.mk s), r)
          | none => none
        else if c = '[' then
          match skipWs rest with
          | ']' :: r2 => some (.list [], r2)
          | _ => parseF fuel (.pelems []) rest
        else if c = lbrace then
          match skipWs rest with
          | c2 :: r2 => if c2 = rbrace then some (.dict [], r2)
                        else parseF fuel (.pmembs []) rest
          | [] => none
        else if c = 't' then
          match expectLit ['r', 'u', 'e'] rest with
          | some r => some (.bool true, r)
          | none => none
        else if c = 'f' then
          match expectLit ['a', 'l', 's', 'e'] rest with
          | some r => some (.bool false, r)
          | none => none
        else if c = 'n' then
          match expectLit ['u', 'l', 'l'] rest with
          | some r => some (.null, r)
          | none => none
        else if c.isDigit || c = '-' then
          let p := (c :: rest).span isNumChar
          some (.num (String.mk p.1), p.2)
        else none
    | .pelems acc =>
      match parseF fuel .pval cs with
      | none => none
      | some (v, r) =>
        match skipWs r with
        | ',' :: r2 => parseF fuel (.pelems (acc ++ [v])) r2
        | ']' :: r2 => some (.list (acc ++ [v]), r2)
        | _ => none
    | .pmembs acc =>
      match skipWs cs with
      | c :: r =>
        if c = '"' then
          match scanStr r with
          | some (k, r2) =>
            match skipWs r2 with
            | ':' :: r3 =>
              match parseF fuel .pval r3 with
              | some (v, r4) =>
                match skipWs r4 with
                | ',' :: r5 => parseF fuel (.pmembs (acc ++ [(String.mk k, v)])) r5
                | c5 :: r5 => if c5 = rbrace
                              then some (.dict (acc ++ [(String.mk k, v)]), r5)
                              else none
                | [] => none
              | none => none
            | _ => none
          | none => none
        else none
      | [] => none

/-- Models `base::JSONReader::ReadAndReturnError` with
`JSON_PARSE_RFC`: parse one JSON value and reject trailing garbage. -/
def parseJson (s : String) : Option JValue :=
  match parseF (4 * s.data.length + 16) .pval s.data with
  | some (v, r) => if skipWs r = [] then some v else none
  | none => none

/-! ### The ObjectMap store operations

Each `...OnThread` member of `ObjectMap` becomes a pure function over the
`Store` (plus the `api_version_` member where the source reads it).
`CreateOpenDatabase` always succeeds in this model, and every engine call
returns `ok`, matching the success paths the claims quantify over. -/

/-- Embeds `ObjectMap::GetRawJsonByLocalId`: a leveldb `Get`; on a
non-`ok` status the out-string is left empty. -/
def GetRawJsonByLocalId (st : Store) (local_id : String) : String :=
  (st local_id).getD ""

/-- Result of `ObjectMap::GetParsedDataByLocalId`.  `fail` is the
function returning `false` (record absent, JSON unparseable, or not a
one-element array); `crash` marks the C++ undefined behaviour of
dereferencing the null `base::Value::FindKey` result (or calling it on a
non-dictionary) when a requested field is missing; `ok` carries the three
out-parameters, with un-requested ones left at their empty defaults. -/
inductive GPDOut where
  | fail
  | crash
  | ok (object_id order api_version : String)
deriving DecidableEq

/-- `entry.FindKey(key)->GetString()`: `none` marks the C++ undefined
behaviour (null `FindKey` result, or a non-string/non-dictionary value). -/
def getFieldString (entry : JValue) (key : String) : Option String :=
  match entry with
  | .dict kvs =>
    match kvs.lookup key with
    | some (.str s) => some s
    | _ => none
  | _ => none

/-- Embeds `ObjectMap::GetParsedDataByLocalId`: compose the raw key, fetch
the raw JSON, parse it, require a one-element array (a `DCHECK`ed but
gracefully handled shape check), then read each requested field.  The
boolean flags model which of the three out-pointers are non-null. -/
def GetParsedDataByLocalId (st : Store) (type : ObjType) (local_id : String)
    (wantObj wantOrder wantApi : Bool) : GPDOut :=
  let raw_local_id := ComposeRawLocalId type local_id
  let json := GetRawJsonByLocalId st raw_local_id
  if json = "" then .fail
  else
    match parseJson json with
    | none => .fail
    | some val =>
      match val with
      | .list [val_entry] =>
        match (if wantObj then getFieldString val_entry "object_id" else some ""),
              (if wantOrder then getFieldString val_entry "order" else some ""),
              (if wantApi then getFieldString val_entry "apiVersion" else some "") with
        | some o, some ord, some ap => .ok o ord ap
        | _, _, _ => .crash
      | _ => .fail

/-- Embeds `ObjectMap::GetObjectIdByLocalIdOnThread` (requests only
`object_id`); `none` propagates the modelled crash. -/
def GetObjectIdByLocalIdOnThread (st : Store) (type : ObjType)
    (local_id : String) : Option String :=
  match GetParsedDataByLocalId st type local_id true false false with
  | .crash => none
  | .fail => some ""
  | .ok o _ _ => some o

/-- Embeds `ObjectMap::GetOrderByLocalObjectIdOnThread` (requests
`object_id` and `order`). -/
def GetOrderByLocalObjectIdOnThread (st : Store) (type : ObjType)
    (local_id : String) : Option String :=
  match GetParsedDataByLocalId st type local_id true true false with
  | .crash => none
  | .fail => some ""
  | .ok _ ord _ => some ord

/-- Embeds `ObjectMap::GetLocalIdByObjectIdOnThread`: a raw `Get` on the
object id followed by `SplitRawLocalId`; a missing entry (or unavailable
store) yields the empty string.  The source `DCHECK(type == read_type)` is
debug-only: the decoded local id is returned regardless. -/
def GetLocalIdByObjectIdOnThread (st : Store) (type : ObjType)
    (object_id : String) : String :=
  match st object_id with
  | none => ""
  | some value => (SplitRawLocalId value).1

/-- Embeds `ObjectMap::SaveObjectIdRawJson`: `Put(raw_local_id, json)`
followed by `Put(object_id, raw_local_id)` — including when `object_id`
is the empty string, in which case the second `Put` targets the
empty-string key. -/
def SaveObjectIdRawJson (st : Store) (raw_local_id object_id_JSON object_id : String) :
    Store × Bool :=
  let st1 := st.put raw_local_id object_id_JSON
  let st2 := st1.put object_id raw_local_id
  (st2, true)

/-- The record text built by `ObjectMap::SaveObjectIdAndOrderInternal`
by unescaped string concatenation (the source comment notes
"this isn't safe because it doesn't escape values"). -/
def recordJson (object_id order api_version : String) : String :=
  "[\x7b\"object_id\": \"" ++ object_id ++ "\", \"order\": \"" ++ order ++
    "\", \"apiVersion\": \"" ++ api_version ++ "\"\x7d]"

/-- Embeds `ObjectMap::SaveObjectIdAndOrderInternal`; `api_version` is the
`api_version_` member.  `DCHECK(!api_version_.empty())` is debug-only. -/
def SaveObjectIdAndOrderInternal (st : Store) (api_version : String)
    (type : ObjType) (local_id object_id order : String) : Store × Bool :=
  SaveObjectIdRawJson st (ComposeRawLocalId type local_id)
    (recordJson object_id order api_version) object_id

/-- The record text built by `ObjectMap::SaveObjectIdOnThread`, reproduced
byte for byte: the opening quote of the `apiVersion` key is missing in the
source, so the text is not well-formed JSON. -/
def objectIdOnlyJson (object_id api_version : String) : String :=
  "[\x7b\"object_id\": \"" ++ object_id ++ "\", apiVersion\": \"" ++
    api_version ++ "\"\x7d]"

/-- Embeds `ObjectMap::SaveObjectIdOnThread` (no check of
`api_version_`). -/
def SaveObjectIdOnThread (st : Store) (api_version : String) (type : ObjType)
    (local_id object_id : String) : Store × Bool :=
  SaveObjectIdRawJson st (ComposeRawLocalId type local_id)
    (objectIdOnlyJson object_id api_version) object_id

/-- Embeds `ObjectMap::UpdateOrderByLocalObjectIdOnThread`: re-read the
record (requesting `object_id` and `order`); fail without writing when the
read fails or the object id is empty; otherwise save with the same object
id and the new order.  `none` propagates the modelled crash. -/
def UpdateOrderByLocalObjectIdOnThread (st : Store) (api_version : String)
    (type : ObjType) (local_id new_order : String) : Option (Store × Bool) :=
  match GetParsedDataByLocalId st type local_id true true false with
  | .crash => none
  | .fail => some (st, false)
  | .ok object_id _ _ =>
    if object_id = "" then some (st, false)
    else some (SaveObjectIdAndOrderInternal st api_version type local_id object_id new_order)

/-- Embeds `ObjectMap::SaveSpecialJson`: a raw-JSON save with an empty
object id, so the reverse `Put` lands on the empty-string key. -/
def SaveSpecialJson (st : Store) (local_id special_JSON : String) : Store × Bool :=
  SaveObjectIdRawJson st local_id special_JSON ""

/-- Embeds `ObjectMap::DeleteByLocalIdOnThread`: read the record, delete
the forward key, and delete the reverse key only when the read succeeded
with a non-empty object id. -/
def DeleteByLocalIdOnThread (st : Store) (type : ObjType) (local_id : String) :
    Option (Store × Bool) :=
  let raw_local_id := ComposeRawLocalId type local_id
  match GetParsedDataByLocalId st type local_id true false false with
  | .crash => none
  | .fail => some (st.del raw_local_id, true)
  | .ok object_id _ _ =>
    let st1 := st.del raw_local_id
    if object_id = "" then some (st1, true)
    else some (st1.del object_id, true)

/-! ### The not-synced record set -/

/-- `std::set<std::string>::insert`: membership-deduplicating insertion
(the C++ set is additionally kept sorted; only membership and size matter
to the claims, so insertion order is used here). -/
def setInsert (l : List String) (x : String) : List String :=
  if x ∈ l then l else l ++ [x]

/-- Modelled from the spec: `jslib_const::DELETE_RECORD`, the external
protocol layer's "fully delete, purge mapping too" action code.
`jslib_const.h` is not part of the reviewed sources; the value `"2"` is
taken from the source comment `(action == jslib_const::DELETE_RECORD); // "2"`
and from the spec's action-code table. -/
def DELETE_RECORD : String := "2"

/-- Embeds the `recordType` switch of
`ObjectMap::SaveGetDeleteNotSyncedRecordsOnThread`; the `default:
NOTREACHED()` arm (hit by `Unset`) is debug-only and leaves the string
empty in release builds. -/
def recordTypeStr : ObjType → String
  | .Bookmark => "BOOKMARKS"
  | .History => "HISTORY_SITES"
  | .Unset => ""

/-- The composite key `recordType + action` of the not-synced set. -/
def notSyncedKey (type : ObjType) (action : String) : String :=
  recordTypeStr type ++ action

/-- Collect the elements of a parsed JSON list into a string set via
`val.GetString()`; a non-string element is the modelled crash
(`GetString` on a value of the wrong type). -/
def stringSetOfJList : List JValue → List String → Option (List String)
  | [], acc => some acc
  | .str s :: rest, acc => stringSetOfJList rest (setInsert acc s)
  | _ :: _, _ => none

/-- Embeds `ObjectMap::DeserializeList`: a parse failure yields the empty
set; a parsed non-list is the modelled crash (`GetList` on a non-list,
after a debug-only `DCHECK`), as is a non-string element. -/
def DeserializeList (raw : String) : Option (List String) :=
  match parseJson raw with
  | none => some []
  | some (.list xs) => stringSetOfJList xs []
  | some _ => none

/-- Embeds `ObjectMap::GetNotSyncedRecords`. -/
def GetNotSyncedRecords (st : Store) (key : String) : Option (List String) :=
  DeserializeList (GetRawJsonByLocalId st key)

/-- Hexadecimal digit character (lower case). -/
def hexDigit (n : Nat) : Char :=
  if n < 10 then Char.ofNat (48 + n) else Char.ofNat (87 + n)

/-- `\uXXXX` escape text for a code point below 0x10000. -/
def uEscape (n : Nat) : String :=
  String.mk ['\\', 'u', hexDigit (n / 4096 % 16), hexDigit (n / 256 % 16),
             hexDigit (n / 16 % 16), hexDigit (n % 16)]

/-- Models `base::EscapeJSONString` (used by `base::JSONWriter`): escape
quotes, backslashes, the named control characters, other control
characters via `\uXXXX`, and the line separators U+2028/U+2029. -/
def escapeJsonChar (c : Char) : String :=
  if c = '"' then "\\\""
  else if c = '\\' then "\\\\"
  else if c = '\n' then "\\n"
  else if c = '\r' then "\\r"
  else if c = '\t' then "\\t"
  else if c.toNat = 8 then "\\b"
  else if c.toNat = 12 then "\\f"
  else if c.toNat < 32 ∨ c.toNat = 8232 ∨ c.toNat = 8233 then uEscape c.toNat
  else String.singleton c

/-- Escape a whole string for embedding in JSON text. -/
def escapeJson (s : String) : String :=
  s.data.foldl (fun acc c => acc ++ escapeJsonChar c) ""

/-- Embeds `ObjectMap::SerializeList` via `base::JSONWriter` with default
options: a compact JSON array of the (escaped) strings. -/
def SerializeList (existing_list : List String) : String :=
  "[" ++ String.intercalate "," (existing_list.map (fun s => "\"" ++ escapeJson s ++ "\"")) ++ "]"

/-- Embeds `ObjectMap::SaveNotSyncedRecords`: a raw-JSON save of the
serialized set with an empty object id (so the reverse `Put` lands on the
empty-string key). -/
def SaveNotSyncedRecords (st : Store) (key : String) (existing_list : List String) :
    Store × Bool :=
  SaveObjectIdRawJson st key (SerializeList existing_list) ""

/-- One iteration of the `DeleteItems` loop of
`SaveGetDeleteNotSyncedRecordsOnThread`: erase the id from the set and,
when the action is the full-delete code and something was erased, delete
the id's mapping record (the boolean result of that delete is ignored by
the source — its `// TODO - error handling`). -/
def deleteNotSyncedStep (type : ObjType) (clear_local_db : Bool)
    (acc : Option (List String × Store)) (id : String) :
    Option (List String × Store) :=
  match acc with
  | none => none
  | some (existing_list, st) =>
    let removed := id ∈ existing_list
    let existing' := existing_list.filter (fun y => y ≠ id)
    if clear_local_db ∧ removed then
      match DeleteByLocalIdOnThread st type id with
      | none => none
      | some (st', _) => some (existing', st')
    else some (existing', st)

/-- Embeds `ObjectMap::SaveGetDeleteNotSyncedRecordsOnThread`.  The
`local_ids` argument is the `std::set` in its iteration order.  `GetItems`
returns before the save; `AddItems`/`DeleteItems` persist the new set and
return it (or the empty set had the save failed).  `none` propagates the
modelled crashes of `DeserializeList` and `DeleteByLocalIdOnThread`. -/
def SaveGetDeleteNotSyncedRecordsOnThread (st : Store) (type : ObjType)
    (action : String) (local_ids : List String)
    (operation : NotSyncedRecordsOperation) : Option (Store × List String) :=
  let key := notSyncedKey type action
  match GetNotSyncedRecords st key with
  | none => none
  | some existing_list =>
    match operation with
    | .GetItems => some (st, existing_list)
    | .AddItems =>
      let l := local_ids.foldl setInsert existing_list
      let r := SaveNotSyncedRecords st key l
      some (if r.2 then (r.1, l) else (r.1, []))
    | .DeleteItems =>
      let clear_local_db := action = DELETE_RECORD
      match local_ids.foldl (deleteNotSyncedStep type (decide clear_local_db)) (some (existing_list, st)) with
      | none => none
      | some (l, st1) =>
        let r := SaveNotSyncedRecords st1 key l
        some (if r.2 then (r.1, l) else (r.1, []))

/-- A string is JSON-benign when it contains no quote, no backslash and no
control character: embedding it verbatim between quotes yields a JSON
string literal denoting exactly it.  The unescaped concatenation in
`SaveObjectIdAndOrderInternal` round-trips precisely for such fields. -/
def jsonBenign (s : String) : Bool :=
  s.data.all (fun c => !(c == '"' || c == '\\' || decide (c.toNat < 32)))

/-- The parsed form of a well-formed full record. -/
def recordJV (object_id order api_version : String) : JValue :=
  JValue.list [JValue.dict [("object_id", JValue.str object_id),
    ("order", JValue.str order), ("apiVersion", JValue.str api_version)]]

/-- A store holding, under the composed key of `(Bookmark, "1")`, a
well-formed one-element-array record with a non-empty `object_id` and no
`order` field. -/
def c4store : Store :=
  emptyStore.put "b1" "[\x7b\"object_id\": \"oid\", \"apiVersion\": \"v1\"\x7d]"

/-! ### C7, C8: the not-synced record set -/

/-- `a` agrees with `b` except possibly for deleted keys. -/
def storeLe (a b : Store) : Prop :=
  ∀ k, a k = b k ∨ a k = none

theorem string_mk_data (s : String) : String.mk s.data = s := by
  cases s
  rfl

theorem string_data_append (a b : String) : (a ++ b).data = a.data ++ b.data := by
  cases a
  cases b
  rfl

/-- The claim `split_key(compose_key(c, s)) = (s, c)` fails for category
`Unset` on a local id whose first byte is a category tag: composing with
`Unset` leaves the string untouched and splitting then strips the leading
`'b'`. -/
theorem C1_counterexample :
    SplitRawLocalId (ComposeRawLocalId ObjType.Unset "b") ≠ ("b", ObjType.Unset) := by
  decide

/-- The compose/split round-trip under the compatibility side
condition. -/
theorem splitCompose_of_compatible (c : ObjType) (s : String)
    (h : splitComposeCompatible c s = true) :
    SplitRawLocalId (ComposeRawLocalId c s) = (s, c) := by
  cases c with
  | Unset =>
    unfold SplitRawLocalId
    cases hd : s.data with
    | nil =>
      have hs : s = "" := by
        cases s with
        | mk d => exact congrArg String.mk hd
      simp [ComposeRawLocalId, hd, hs]
    | cons ch rest =>
      have hb : ¬(ch = 'b') ∧ ¬(ch = 'h') := by
        simp [splitComposeCompatible, hd] at h
        exact ⟨fun hc => h.1 (by simp [hc]), fun hc => h.2 (by simp [hc])⟩
      simp [ComposeRawLocalId, hd, hb.1, hb.2]
  | Bookmark =>
    unfold SplitRawLocalId
    have hd : (ComposeRawLocalId ObjType.Bookmark s).data = 'b' :: s.data := by
      simp [ComposeRawLocalId, string_data_append]
    simp [hd, string_mk_data]
  | History =>
    unfold SplitRawLocalId
    have hd : (ComposeRawLocalId ObjType.History s).data = 'h' :: s.data := by
      simp [ComposeRawLocalId, string_data_append]
    simp [hd, string_mk_data]

/-- C1 (amended): `split_key(compose_key(c, s)) = (s, c)` holds for the
categories `Bookmark` and `History` at every local id, and for `Unset`
whenever the local id is empty or does not begin with the tag byte `'b'`
or `'h'`. -/
theorem C1_amended (c : ObjType) (s : String)
    (h : splitComposeCompatible c s = true) :
    SplitRawLocalId (ComposeRawLocalId c s) = (s, c) :=
  splitCompose_of_compatible c s h

/-- Witness for C1: the amended round-trip theorem applied at category
`Unset` and local id `"x"`. -/
theorem C1_witness :
    SplitRawLocalId (ComposeRawLocalId ObjType.Unset "x") = ("x", ObjType.Unset) :=
  C1_amended ObjType.Unset "x" (by decide)

theorem jsonBenign_chars (s : String) (h : jsonBenign s = true) :
    ∀ c ∈ s.data, ¬(c = '"') ∧ ¬(c = '\\') := by
  intro c hc
  have hall := List.all_eq_true.mp h c hc
  constructor <;> intro he <;> subst he <;> simp at hall

theorem skipWs_cons (c : Char) (r : List Char) (h : isWsChar c = false) :
    skipWs (c :: r) = c :: r := by
  simp [skipWs, List.dropWhile_cons, h]

theorem skipWs_space (r : List Char) : skipWs (' ' :: r) = skipWs r := by
  simp [skipWs, List.dropWhile_cons, isWsChar]

theorem scanStr_append (l r : List Char)
    (h : ∀ c ∈ l, ¬(c = '"') ∧ ¬(c = '\\')) :
    scanStr (l ++ '"' :: r) = some (l, r) := by
  induction l with
  | nil =>
    rw [scanStr.eq_def]
    simp
  | cons a t ih =>
    have ha := h a (by simp)
    have ht : ∀ c ∈ t, ¬(c = '"') ∧ ¬(c = '\\') := fun c hc => h c (by simp [hc])
    rw [List.cons_append, scanStr.eq_def]
    simp [ha.1, ha.2, ih ht]

theorem pv_str (n : Nat) (s : String) (r cs : List Char)
    (hcs : skipWs cs = '"' :: (s.data ++ '"' :: r))
    (hs : jsonBenign s = true) :
    parseF (n + 1) PMode.pval cs = some (JValue.str s, r) := by
  rw [show n + 1 = Nat.succ n from rfl]
  simp only [parseF]
  rw [hcs]
  simp [scanStr_append _ _ (jsonBenign_chars s hs), string_mk_data]

theorem pmembs_str_mid (n : Nat) (acc : List (String × JValue)) (k s : String)
    (rest cs : List Char)
    (hk : jsonBenign k = true) (hs : jsonBenign s = true)
    (hcs : skipWs cs = '"' :: (k.data ++ '"' :: ':' :: ' ' :: '"' :: (s.data ++ '"' :: ',' :: rest))) :
    parseF (n + 2) (PMode.pmembs acc) cs =
      parseF (n + 1) (PMode.pmembs (acc ++ [(k, JValue.str s)])) rest := by
  conv_lhs => rw [show n + 2 = Nat.succ (n + 1) from rfl, parseF]
  rw [hcs]
  simp only [scanStr_append _ _ (jsonBenign_chars k hk), string_mk_data,
    show skipWs (':' :: ' ' :: '"' :: (s.data ++ '"' :: ',' :: rest)) =
      ':' :: ' ' :: '"' :: (s.data ++ '"' :: ',' :: rest) from skipWs_cons _ _ (by decide),
    show skipWs (',' :: rest) = ',' :: rest from skipWs_cons _ _ (by decide),
    pv_str n s (',' :: rest) (' ' :: '"' :: (s.data ++ '"' :: ',' :: rest))
      (by rw [skipWs_space]; exact skipWs_cons _ _ (by decide)) hs,
    if_true]

theorem pmembs_str_last (n : Nat) (acc : List (String × JValue)) (k s : String)
    (rest cs : List Char)
    (hk : jsonBenign k = true) (hs : jsonBenign s = true)
    (hcs : skipWs cs = '"' :: (k.data ++ '"' :: ':' :: ' ' :: '"' :: (s.data ++ '"' :: rbrace :: rest))) :
    parseF (n + 2) (PMode.pmembs acc) cs =
      some (JValue.dict (acc ++ [(k, JValue.str s)]), rest) := by
  conv_lhs => rw [show n + 2 = Nat.succ (n + 1) from rfl, parseF]
  rw [hcs]
  simp only [rbrace, scanStr_append _ _ (jsonBenign_chars k hk), string_mk_data,
    show skipWs (':' :: ' ' :: '"' :: (s.data ++ '"' :: '\x7d' :: rest)) =
      ':' :: ' ' :: '"' :: (s.data ++ '"' :: '\x7d' :: rest) from skipWs_cons _ _ (by decide),
    show skipWs ('\x7d' :: rest) = '\x7d' :: rest from skipWs_cons _ _ (by decide),
    pv_str n s ('\x7d' :: rest) (' ' :: '"' :: (s.data ++ '"' :: '\x7d' :: rest))
      (by rw [skipWs_space]; exact skipWs_cons _ _ (by decide)) hs,
    if_true]
  simp

theorem pv_obj3 (n : Nat) (k1 k2 k3 s1 s2 s3 : String) (rest cs : List Char)
    (hk1 : jsonBenign k1 = true) (hk2 : jsonBenign k2 = true)
    (hk3 : jsonBenign k3 = true)
    (hs1 : jsonBenign s1 = true) (hs2 : jsonBenign s2 = true)
    (hs3 : jsonBenign s3 = true)
    (hcs : skipWs cs = lbrace :: '"' ::
      (k1.data ++ '"' :: ':' :: ' ' :: '"' ::
      (s1.data ++ '"' :: ',' :: ' ' :: '"' ::
      (k2.data ++ '"' :: ':' :: ' ' :: '"' ::
      (s2.data ++ '"' :: ',' :: ' ' :: '"' ::
      (k3.data ++ '"' :: ':' :: ' ' :: '"' ::
      (s3.data ++ '"' :: rbrace :: rest))))))) :
    parseF (n + 5) PMode.pval cs =
      some (JValue.dict [(k1, JValue.str s1), (k2, JValue.str s2), (k3, JValue.str s3)], rest) := by
  conv_lhs => rw [show n + 5 = Nat.succ (n + 4) from rfl, parseF]
  rw [hcs]
  simp only [lbrace, rbrace,
    show skipWs ('"' ::
      (k1.data ++ '"' :: ':' :: ' ' :: '"' ::
      (s1.data ++ '"' :: ',' :: ' ' :: '"' ::
      (k2.data ++ '"' :: ':' :: ' ' :: '"' ::
      (s2.data ++ '"' :: ',' :: ' ' :: '"' ::
      (k3.data ++ '"' :: ':' :: ' ' :: '"' ::
      (s3.data ++ '"' :: '\x7d' :: rest))))))) = '"' ::
      (k1.data ++ '"' :: ':' :: ' ' :: '"' ::
      (s1.data ++ '"' :: ',' :: ' ' :: '"' ::
      (k2.data ++ '"' :: ':' :: ' ' :: '"' ::
      (s2.data ++ '"' :: ',' :: ' ' :: '"' ::
      (k3.data ++ '"' :: ':' :: ' ' :: '"' ::
      (s3.data ++ '"' :: '\x7d' :: rest))))))
      from skipWs_cons _ _ (by decide)]
  rw [show n + 4 = n + 2 + 2 from rfl,
    pmembs_str_mid (n + 2) [] k1 s1 _ _ hk1 hs1
      (skipWs_cons _ _ (by decide))]
  rw [show n + 2 + 1 = n + 1 + 2 from rfl,
    pmembs_str_mid (n + 1) _ k2 s2 _ _ hk2 hs2
      (by rw [skipWs_space]; exact skipWs_cons _ _ (by decide))]
  rw [pmembs_str_last n _ k3 s3 _ _ hk3 hs3
      (by rw [skipWs_space]; exact skipWs_cons _ _ (by decide))]
  simp

theorem recordJson_data (O Ord V : String) :
    (recordJson O Ord V).data =
      '[' :: lbrace :: '"' ::
      (("object_id" : String).data ++ '"' :: ':' :: ' ' :: '"' ::
      (O.data ++ '"' :: ',' :: ' ' :: '"' ::
      (("order" : String).data ++ '"' :: ':' :: ' ' :: '"' ::
      (Ord.data ++ '"' :: ',' :: ' ' :: '"' ::
      (("apiVersion" : String).data ++ '"' :: ':' :: ' ' :: '"' ::
      (V.data ++ '"' :: rbrace :: [']'])))))) := by
  have e1 : ("[\x7b\"object_id\": \"" : String).data =
      '[' :: lbrace :: '"' :: (("object_id" : String).data ++ ['"', ':', ' ', '"']) := by decide
  have e2 : ("\", \"order\": \"" : String).data =
      '"' :: ',' :: ' ' :: '"' :: (("order" : String).data ++ ['"', ':', ' ', '"']) := by decide
  have e3 : ("\", \"apiVersion\": \"" : String).data =
      '"' :: ',' :: ' ' :: '"' :: (("apiVersion" : String).data ++ ['"', ':', ' ', '"']) := by decide
  have e4 : ("\"\x7d]" : String).data = ['"', rbrace, ']'] := by decide
  simp only [recordJson, string_data_append, e1, e2, e3, e4]
  simp [List.append_assoc]
  exact ⟨rfl, rfl⟩

theorem pv_arr1_obj (n : Nat) (cs inner itail : List Char) (v : JValue)
    (hcs : skipWs cs = '[' :: inner)
    (hinner : skipWs inner = lbrace :: itail)
    (hv : parseF (n + 1) PMode.pval inner = some (v, [']'])) :
    parseF (n + 3) PMode.pval cs = some (JValue.list [v], []) := by
  have hstep : parseF (n + 2) (PMode.pelems []) inner = some (JValue.list [v], []) := by
    conv_lhs => rw [show n + 2 = Nat.succ (n + 1) from rfl, parseF]
    rw [hv]
    simp [show skipWs [']'] = [']'] from rfl]
  conv_lhs => rw [show n + 3 = Nat.succ (n + 2) from rfl, parseF]
  rw [hcs]
  simp only [hinner, lbrace, hstep]
  simp

theorem parseF_record (n : Nat) (O Ord V : String)
    (hO : jsonBenign O = true) (hOrd : jsonBenign Ord = true)
    (hV : jsonBenign V = true) :
    parseF (n + 7) PMode.pval ((recordJson O Ord V).data) =
      some (recordJV O Ord V, []) := by
  rw [recordJson_data]
  exact pv_arr1_obj (n + 4) _ _ _ _
    (skipWs_cons _ _ (by decide))
    (skipWs_cons _ _ (by decide))
    (pv_obj3 n "object_id" "order" "apiVersion" O Ord V [']'] _
      (by decide) (by decide) (by decide) hO hOrd hV
      (skipWs_cons _ _ (by decide)))

theorem parseJson_record (O Ord V : String)
    (hO : jsonBenign O = true) (hOrd : jsonBenign Ord = true)
    (hV : jsonBenign V = true) :
    parseJson (recordJson O Ord V) = some (recordJV O Ord V) := by
  unfold parseJson
  rw [show 4 * (recordJson O Ord V).data.length + 16 =
      (4 * (recordJson O Ord V).data.length + 9) + 7 from by omega]
  rw [parseF_record _ O Ord V hO hOrd hV]
  simp [skipWs]

theorem recordJson_ne_empty (O Ord V : String) : recordJson O Ord V ≠ "" := by
  intro h
  have hd := congrArg String.data h
  rw [recordJson_data] at hd
  simp at hd

/-- Decoding a well-formed full record returns exactly the requested
fields (and the empty default for un-requested ones). -/
theorem GPD_record (st : Store) (type : ObjType) (local_id O Ord V : String)
    (hO : jsonBenign O = true) (hOrd : jsonBenign Ord = true)
    (hV : jsonBenign V = true)
    (hst : st (ComposeRawLocalId type local_id) = some (recordJson O Ord V))
    (wo word wapi : Bool) :
    GetParsedDataByLocalId st type local_id wo word wapi =
      .ok (if wo then O else "") (if word then Ord else "") (if wapi then V else "") := by
  unfold GetParsedDataByLocalId GetRawJsonByLocalId
  dsimp only
  rw [hst]
  simp only [Option.getD_some]
  rw [if_neg (recordJson_ne_empty O Ord V)]
  rw [parseJson_record O Ord V hO hOrd hV]
  cases wo <;> cases word <;> cases wapi <;>
    simp [recordJV, getFieldString, List.lookup]

/-! ### C3, C4: decode/encode bugs evaluated at concrete inputs -/

/-- C3 (code bug): `SaveObjectId` builds its record with the opening quote
of the `apiVersion` key missing (`", apiVersion\": \""` in the source), so
(1) the call still reports success when the API version was never set,
(2) the stored text under the composed key is not well-formed JSON, and
(3) a subsequent `get_object_id_by_local_id` parses nothing and returns
the empty string instead of the saved object id. -/
theorem C3_bug :
    (SaveObjectIdOnThread emptyStore "" ObjType.Bookmark "1" "oid").2 = true ∧
    ((SaveObjectIdOnThread emptyStore "v1" ObjType.Bookmark "1" "oid").1) "b1" =
      some "[\x7b\"object_id\": \"oid\", apiVersion\": \"v1\"\x7d]" ∧
    (parseJson "[\x7b\"object_id\": \"oid\", apiVersion\": \"v1\"\x7d]").isNone = true ∧
    GetObjectIdByLocalIdOnThread
      (SaveObjectIdOnThread emptyStore "v1" ObjType.Bookmark "1" "oid").1
      ObjType.Bookmark "1" = some "" :=
  ⟨rfl, rfl, rfl, rfl⟩

/-- C4 (code bug): on a well-formed record without an `order` field, a
decode that does not request `order` succeeds, but a decode requesting it
(`get_order_by_local_id` does) hits the null `FindKey("order")` pointer:
the modelled crash, not the empty string the claim describes. -/
theorem C4_bug :
    GetParsedDataByLocalId c4store ObjType.Bookmark "1" true false false =
      .ok "oid" "" "" ∧
    GetParsedDataByLocalId c4store ObjType.Bookmark "1" true true false = .crash ∧
    GetOrderByLocalObjectIdOnThread c4store ObjType.Bookmark "1" = none :=
  ⟨rfl, rfl, rfl⟩

/-! ### C10: the stray write to the empty-string key -/

/-- C10: both `SaveSpecialJson` and the not-synced-set persist go through
`SaveObjectIdRawJson` with an empty `object_id`, whose second `Put` then
writes the just-written raw key as the value of the empty-string key. -/
theorem C10_theorem (st : Store) (local_id special_JSON key : String)
    (existing_list : List String) :
    ((SaveSpecialJson st local_id special_JSON).1) "" = some local_id ∧
    ((SaveNotSyncedRecords st key existing_list).1) "" = some key :=
  ⟨rfl, rfl⟩

/-! ### C2: save followed by the three lookups -/

/-- C2 fails as universally quantified: with category `Unset` and a local
id beginning with the tag byte `'b'`, the save succeeds but the reverse
lookup splits the stored raw key as a `Bookmark` key and returns the
empty string instead of the local id. -/
theorem C2_counterexample :
    (SaveObjectIdAndOrderInternal emptyStore "v" ObjType.Unset "b" "o" "1").2 = true ∧
    GetLocalIdByObjectIdOnThread
      (SaveObjectIdAndOrderInternal emptyStore "v" ObjType.Unset "b" "o" "1").1
      ObjType.Unset "o" = "" ∧
    GetLocalIdByObjectIdOnThread
      (SaveObjectIdAndOrderInternal emptyStore "v" ObjType.Unset "b" "o" "1").1
      ObjType.Unset "o" ≠ "b" := by
  refine ⟨rfl, rfl, ?_⟩
  decide

/-- C2 (amended): after `save_object_id_and_order(c, L, O, Ord)` succeeds,
the three lookups return `O`, `Ord` and `L` respectively, provided the
composed key decodes back to `(L, c)` (i.e. `c ≠ Unset` or `L` does not
begin with `'b'`/`'h'`), the object id, order and API version contain no
characters that JSON would require escaping (no quote, backslash or
control character), and the object id does not collide with the composed
forward key itself. -/
theorem C2_amended (st : Store) (api : String) (c : ObjType) (L O Ord : String)
    (hc : splitComposeCompatible c L = true)
    (hO : jsonBenign O = true) (hOrd : jsonBenign Ord = true)
    (hapi : jsonBenign api = true)
    (hne : O ≠ ComposeRawLocalId c L) :
    (SaveObjectIdAndOrderInternal st api c L O Ord).2 = true ∧
    GetObjectIdByLocalIdOnThread (SaveObjectIdAndOrderInternal st api c L O Ord).1 c L
      = some O ∧
    GetOrderByLocalObjectIdOnThread (SaveObjectIdAndOrderInternal st api c L O Ord).1 c L
      = some Ord ∧
    GetLocalIdByObjectIdOnThread (SaveObjectIdAndOrderInternal st api c L O Ord).1 c O
      = L := by
  have hfwd : (SaveObjectIdAndOrderInternal st api c L O Ord).1 (ComposeRawLocalId c L) =
      some (recordJson O Ord api) := by
    simp [SaveObjectIdAndOrderInternal, SaveObjectIdRawJson, Store.put,
      show ¬(ComposeRawLocalId c L = O) from fun h => hne h.symm]
  have hrev : (SaveObjectIdAndOrderInternal st api c L O Ord).1 O =
      some (ComposeRawLocalId c L) := by
    simp [SaveObjectIdAndOrderInternal, SaveObjectIdRawJson, Store.put]
  refine ⟨rfl, ?_, ?_, ?_⟩
  · unfold GetObjectIdByLocalIdOnThread
    rw [GPD_record _ c L O Ord api hO hOrd hapi hfwd true false false]
    rfl
  · unfold GetOrderByLocalObjectIdOnThread
    rw [GPD_record _ c L O Ord api hO hOrd hapi hfwd true true false]
    rfl
  · unfold GetLocalIdByObjectIdOnThread
    rw [hrev]
    simp [splitCompose_of_compatible c L hc]

/-- Witness for C2: the amended theorem at `(Bookmark, "1", "o1", "1.1")`
with API version `"v1"` on the empty store. -/
theorem C2_witness :
    (SaveObjectIdAndOrderInternal emptyStore "v1" ObjType.Bookmark "1" "o1" "1.1").2 = true ∧
    GetObjectIdByLocalIdOnThread
      (SaveObjectIdAndOrderInternal emptyStore "v1" ObjType.Bookmark "1" "o1" "1.1").1
      ObjType.Bookmark "1" = some "o1" ∧
    GetOrderByLocalObjectIdOnThread
      (SaveObjectIdAndOrderInternal emptyStore "v1" ObjType.Bookmark "1" "o1" "1.1").1
      ObjType.Bookmark "1" = some "1.1" ∧
    GetLocalIdByObjectIdOnThread
      (SaveObjectIdAndOrderInternal emptyStore "v1" ObjType.Bookmark "1" "o1" "1.1").1
      ObjType.Bookmark "o1" = "1" :=
  C2_amended emptyStore "v1" ObjType.Bookmark "1" "o1" "1.1"
    (by decide) (by decide) (by decide) (by decide) (by decide)

/-! ### C5: delete after save, and the no-op delete -/

/-- C5 fails as universally quantified: an object id containing a quote
breaks the unescaped record JSON, so the save succeeds but the delete
cannot re-read the object id and leaves the reverse entry in place; the
subsequent reverse lookup returns the local id instead of empty. -/
theorem C5_counterexample :
    (SaveObjectIdAndOrderInternal emptyStore "v" ObjType.Bookmark "1" "\"" "x").2 = true ∧
    ((DeleteByLocalIdOnThread
        (SaveObjectIdAndOrderInternal emptyStore "v" ObjType.Bookmark "1" "\"" "x").1
        ObjType.Bookmark "1").map (fun r => r.2)) = some true ∧
    ((DeleteByLocalIdOnThread
        (SaveObjectIdAndOrderInternal emptyStore "v" ObjType.Bookmark "1" "\"" "x").1
        ObjType.Bookmark "1").map
      (fun r => GetLocalIdByObjectIdOnThread r.1 ObjType.Bookmark "\"")) = some "1" := by
  refine ⟨rfl, rfl, rfl⟩

/-- C5 (amended): (1) after a successful
`save_object_id_and_order(c, L, O, Ord)` with a non-empty object id that
contains no JSON-escaped characters (likewise the order and API version)
and does not collide with the composed forward key,
`delete_by_local_id(c, L)` succeeds and removes both entries: the forward
and reverse lookups then both return empty.  (2) When no forward entry
exists, the delete is a no-op and still reports success. -/
theorem C5_amended :
    (∀ (st : Store) (api : String) (c : ObjType) (L O Ord : String),
      jsonBenign O = true → jsonBenign Ord = true → jsonBenign api = true →
      O ≠ "" → O ≠ ComposeRawLocalId c L →
      ∃ st2,
        DeleteByLocalIdOnThread (SaveObjectIdAndOrderInternal st api c L O Ord).1 c L =
          some (st2, true) ∧
        GetObjectIdByLocalIdOnThread st2 c L = some "" ∧
        GetLocalIdByObjectIdOnThread st2 c O = "") ∧
    (∀ (st : Store) (c : ObjType) (L : String),
      st (ComposeRawLocalId c L) = none →
      DeleteByLocalIdOnThread st c L = some (st, true)) := by
  constructor
  · intro st api c L O Ord hO hOrd hapi hOne hne
    have hfwd : (SaveObjectIdAndOrderInternal st api c L O Ord).1 (ComposeRawLocalId c L) =
        some (recordJson O Ord api) := by
      simp [SaveObjectIdAndOrderInternal, SaveObjectIdRawJson, Store.put,
        show ¬(ComposeRawLocalId c L = O) from fun h => hne h.symm]
    have hGPD := GPD_record _ c L O Ord api hO hOrd hapi hfwd true false false
    refine ⟨(((SaveObjectIdAndOrderInternal st api c L O Ord).1.del
        (ComposeRawLocalId c L)).del O), ?_, ?_, ?_⟩
    · unfold DeleteByLocalIdOnThread
      rw [hGPD]
      simp [hOne]
    · unfold GetObjectIdByLocalIdOnThread GetParsedDataByLocalId GetRawJsonByLocalId
      simp [Store.del, show ¬(ComposeRawLocalId c L = O) from fun h => hne h.symm]
    · unfold GetLocalIdByObjectIdOnThread
      simp [Store.del]
  · intro st c L h
    have hgpd : GetParsedDataByLocalId st c L true false false = .fail := by
      unfold GetParsedDataByLocalId GetRawJsonByLocalId
      simp [h]
    have hdel : st.del (ComposeRawLocalId c L) = st := by
      funext x
      by_cases hx : x = ComposeRawLocalId c L
      · subst hx
        simp [Store.del, h]
      · simp [Store.del, hx]
    unfold DeleteByLocalIdOnThread
    rw [hgpd]
    dsimp only
    rw [hdel]

/-- Witness for C5: both halves of the amended theorem at concrete
inputs — a save of `(Bookmark, "1", "o1", "1.1")` followed by a delete,
and a no-op delete on the empty store. -/
theorem C5_witness :
    (∃ st2,
      DeleteByLocalIdOnThread
        (SaveObjectIdAndOrderInternal emptyStore "v1" ObjType.Bookmark "1" "o1" "1.1").1
        ObjType.Bookmark "1" = some (st2, true) ∧
      GetObjectIdByLocalIdOnThread st2 ObjType.Bookmark "1" = some "" ∧
      GetLocalIdByObjectIdOnThread st2 ObjType.Bookmark "o1" = "") ∧
    DeleteByLocalIdOnThread emptyStore ObjType.History "z" = some (emptyStore, true) :=
  ⟨C5_amended.1 emptyStore "v1" ObjType.Bookmark "1" "o1" "1.1"
      (by decide) (by decide) (by decide) (by decide) (by decide),
    C5_amended.2 emptyStore ObjType.History "z" rfl⟩

/-! ### C6: update_order -/

/-- C6 fails as universally quantified: a stored record that is a valid
`ObjectRecord` by the data model (its `order` field is optional) but has
no `order` field falls in the claim's "otherwise rewrite" case, yet
`update_order` — which requests `order` from the decode — hits the null
`FindKey("order")` pointer (the modelled crash) instead of rewriting. -/
theorem C6_counterexample :
    UpdateOrderByLocalObjectIdOnThread
      (emptyStore.put "b1" "[\x7b\"object_id\": \"x\", \"apiVersion\": \"v\"\x7d]") "v"
      ObjType.Bookmark "1" "2" = none :=
  rfl

/-- C6 (amended): `update_order(c, L, newOrd)` — reading the stored record as the
code does (requesting `object_id` and `order`): (1) when the read fails
(no entry under the composed key, unparseable text, or wrong shape) it
returns `false` with the store untouched, and a subsequent
`get_order_by_local_id` still returns empty; (2) when the record decodes
with an empty `object_id` it returns `false` with the store untouched;
(3) when the record decodes with a non-empty `object_id 'o'` it succeeds
and rewrites the forward entry to the record with the same `o` and the
new order (stated for an object id that does not collide with the
composed key, where the second `Put` of the dual write would otherwise
overwrite the forward entry). -/
theorem C6_theorem (st : Store) (api : String) (c : ObjType) (L newOrd : String) :
    (GetParsedDataByLocalId st c L true true false = .fail →
      UpdateOrderByLocalObjectIdOnThread st api c L newOrd = some (st, false) ∧
      GetOrderByLocalObjectIdOnThread st c L = some "") ∧
    (∀ ord ap, GetParsedDataByLocalId st c L true true false = .ok "" ord ap →
      UpdateOrderByLocalObjectIdOnThread st api c L newOrd = some (st, false)) ∧
    (∀ o ord ap, GetParsedDataByLocalId st c L true true false = .ok o ord ap →
      o ≠ "" →
      ∃ st2, UpdateOrderByLocalObjectIdOnThread st api c L newOrd = some (st2, true) ∧
        (o ≠ ComposeRawLocalId c L →
          st2 (ComposeRawLocalId c L) = some (recordJson o newOrd api))) := by
  refine ⟨?_, ?_, ?_⟩
  · intro h
    constructor
    · unfold UpdateOrderByLocalObjectIdOnThread
      rw [h]
    · unfold GetOrderByLocalObjectIdOnThread
      rw [h]
  · intro ord ap h
    unfold UpdateOrderByLocalObjectIdOnThread
    rw [h]
    simp
  · intro o ord ap h ho
    refine ⟨(SaveObjectIdAndOrderInternal st api c L o newOrd).1, ?_, ?_⟩
    · unfold UpdateOrderByLocalObjectIdOnThread
      rw [h]
      simp [ho, SaveObjectIdAndOrderInternal, SaveObjectIdRawJson]
    · intro hcol
      simp [SaveObjectIdAndOrderInternal, SaveObjectIdRawJson, Store.put,
        show ¬(ComposeRawLocalId c L = o) from fun hx => hcol hx.symm]

/-- Witness for C6: the three cases at concrete stores — an empty store,
a store whose record has an empty object id, and a store with a full
record. -/
theorem C6_witness :
    (UpdateOrderByLocalObjectIdOnThread emptyStore "v" ObjType.Bookmark "1" "2" =
        some (emptyStore, false) ∧
      GetOrderByLocalObjectIdOnThread emptyStore ObjType.Bookmark "1" = some "") ∧
    UpdateOrderByLocalObjectIdOnThread (emptyStore.put "b1" (recordJson "" "x" "v")) "v"
        ObjType.Bookmark "1" "2" =
      some (emptyStore.put "b1" (recordJson "" "x" "v"), false) ∧
    (∃ st2,
      UpdateOrderByLocalObjectIdOnThread (emptyStore.put "b1" (recordJson "o" "x" "v")) "v"
          ObjType.Bookmark "1" "2" = some (st2, true) ∧
      ("o" ≠ ComposeRawLocalId ObjType.Bookmark "1" →
        st2 (ComposeRawLocalId ObjType.Bookmark "1") = some (recordJson "o" "2" "v"))) :=
  ⟨(C6_theorem emptyStore "v" ObjType.Bookmark "1" "2").1 (by decide),
    (C6_theorem (emptyStore.put "b1" (recordJson "" "x" "v")) "v" ObjType.Bookmark "1" "2").2.1
      "x" "" (by decide),
    (C6_theorem (emptyStore.put "b1" (recordJson "o" "x" "v")) "v" ObjType.Bookmark "1" "2").2.2
      "o" "x" "" (by decide) (by decide)⟩

theorem storeLe_refl (st : Store) : storeLe st st := fun _ => Or.inl rfl

theorem storeLe_trans (a b c : Store) (hab : storeLe a b) (hbc : storeLe b c) :
    storeLe a c := by
  intro k
  rcases hab k with h | h
  · rcases hbc k with h2 | h2
    · exact Or.inl (h.trans h2)
    · exact Or.inr (h.trans h2)
  · exact Or.inr h

theorem storeLe_none (a b : Store) (hab : storeLe a b) (k : String)
    (h : b k = none) : a k = none := by
  rcases hab k with h2 | h2
  · exact h2.trans h
  · exact h2

theorem storeLe_del (st : Store) (k : String) : storeLe (st.del k) st := by
  intro x
  by_cases h : x = k <;> simp [Store.del, h]

theorem GPD_congr (st1 st2 : Store) (c : ObjType) (L : String) (w1 w2 w3 : Bool)
    (h : st1 (ComposeRawLocalId c L) = st2 (ComposeRawLocalId c L)) :
    GetParsedDataByLocalId st1 c L w1 w2 w3 = GetParsedDataByLocalId st2 c L w1 w2 w3 := by
  unfold GetParsedDataByLocalId GetRawJsonByLocalId
  dsimp only
  rw [h]

theorem GPD_none (st : Store) (c : ObjType) (L : String) (w1 w2 w3 : Bool)
    (h : st (ComposeRawLocalId c L) = none) :
    GetParsedDataByLocalId st c L w1 w2 w3 = .fail := by
  unfold GetParsedDataByLocalId GetRawJsonByLocalId
  dsimp only
  simp [h]

/-- A non-crashing read makes `DeleteByLocalIdOnThread` succeed; it always
clears the forward key and only ever removes keys. -/
theorem delete_shape (st : Store) (c : ObjType) (id : String)
    (h : GetParsedDataByLocalId st c id true false false ≠ .crash) :
    ∃ st1, DeleteByLocalIdOnThread st c id = some (st1, true) ∧
      st1 (ComposeRawLocalId c id) = none ∧ storeLe st1 st := by
  unfold DeleteByLocalIdOnThread
  cases hg : GetParsedDataByLocalId st c id true false false with
  | crash => exact absurd hg h
  | fail =>
    exact ⟨st.del (ComposeRawLocalId c id), rfl, by simp [Store.del], storeLe_del _ _⟩
  | ok o ord ap =>
    dsimp only
    by_cases ho : o = ""
    · refine ⟨st.del (ComposeRawLocalId c id), by simp [ho], by simp [Store.del],
        storeLe_del _ _⟩
    · refine ⟨(st.del (ComposeRawLocalId c id)).del o, by simp [ho], ?_, ?_⟩
      · rcases storeLe_del (st.del (ComposeRawLocalId c id)) o (ComposeRawLocalId c id) with h2 | h2
        · rw [h2]
          simp [Store.del]
        · exact h2
      · exact storeLe_trans _ _ _ (storeLe_del _ _) (storeLe_del _ _)

/-- The `DeleteItems` erase loop: the resulting set is the original minus
the given ids; the store only loses keys; with the full-delete action the
forward key of every id that was present is gone; with any other action
the store is untouched. -/
theorem deleteFold (c : ObjType) (clear : Bool) (ids : List String) :
    ∀ (l : List String) (st : Store),
      (clear = true → ∀ id ∈ ids, GetParsedDataByLocalId st c id true false false ≠ .crash) →
      ∃ res st',
        ids.foldl (deleteNotSyncedStep c clear) (some (l, st)) = some (res, st') ∧
        (∀ x, x ∈ res ↔ x ∈ l ∧ x ∉ ids) ∧
        storeLe st' st ∧
        (clear = true → ∀ id ∈ ids, id ∈ l → st' (ComposeRawLocalId c id) = none) ∧
        (clear = false → st' = st) := by
  induction ids with
  | nil =>
    intro l st _
    exact ⟨l, st, rfl, by simp, storeLe_refl st, by simp, fun _ => rfl⟩
  | cons id0 rest ih =>
    intro l st hnc
    rw [List.foldl_cons]
    have hmem1 : ∀ x, x ∈ l.filter (fun y => y ≠ id0) ↔ x ∈ l ∧ x ≠ id0 := by
      intro x
      simp [List.mem_filter]
    by_cases hcond : (clear : Prop) ∧ id0 ∈ l
    · -- the mapping record of id0 is deleted
      obtain ⟨st1, hdel, hfwd1, hle1⟩ :=
        delete_shape st c id0 (hnc hcond.1 id0 (by simp))
      have hstep : deleteNotSyncedStep c clear (some (l, st)) id0 =
          some (l.filter (fun y => y ≠ id0), st1) := by
        unfold deleteNotSyncedStep
        dsimp only
        rw [if_pos hcond, hdel]
      have hnc1 : clear = true →
          ∀ id ∈ rest, GetParsedDataByLocalId st1 c id true false false ≠ .crash := by
        intro hcl id hid
        rcases hle1 (ComposeRawLocalId c id) with he | he
        · rw [GPD_congr st1 st c id true false false he]
          exact hnc hcl id (by simp [hid])
        · rw [GPD_none st1 c id true false false he]
          simp
      obtain ⟨res, st', hfold, hres, hle, hclear, hnoclear⟩ :=
        ih (l.filter (fun y => y ≠ id0)) st1 hnc1
      rw [hstep]
      refine ⟨res, st', hfold, ?_, storeLe_trans _ _ _ hle hle1, ?_, ?_⟩
      · intro x
        rw [hres x, hmem1 x]
        constructor
        · rintro ⟨⟨hxl, hxne⟩, hxr⟩
          exact ⟨hxl, by simp [hxne, hxr]⟩
        · rintro ⟨hxl, hxr⟩
          simp only [List.mem_cons, not_or] at hxr
          exact ⟨⟨hxl, hxr.1⟩, hxr.2⟩
      · intro hcl id hid hidl
        rcases List.mem_cons.mp hid with h0 | hr
        · subst h0
          exact storeLe_none st' st1 hle _ hfwd1
        · by_cases hxne : id = id0
          · subst hxne
            exact storeLe_none st' st1 hle _ hfwd1
          · exact hclear hcl id hr ((hmem1 id).mpr ⟨hidl, hxne⟩)
      · intro hcl
        exact absurd hcond.1 (by simp [hcl])
    · -- no mapping delete for id0
      have hstep : deleteNotSyncedStep c clear (some (l, st)) id0 =
          some (l.filter (fun y => y ≠ id0), st) := by
        unfold deleteNotSyncedStep
        dsimp only
        rw [if_neg hcond]
      have hnc1 : clear = true →
          ∀ id ∈ rest, GetParsedDataByLocalId st c id true false false ≠ .crash :=
        fun hcl id hid => hnc hcl id (by simp [hid])
      obtain ⟨res, st', hfold, hres, hle, hclear, hnoclear⟩ :=
        ih (l.filter (fun y => y ≠ id0)) st hnc1
      rw [hstep]
      refine ⟨res, st', hfold, ?_, hle, ?_, hnoclear⟩
      · intro x
        rw [hres x, hmem1 x]
        constructor
        · rintro ⟨⟨hxl, hxne⟩, hxr⟩
          exact ⟨hxl, by simp [hxne, hxr]⟩
        · rintro ⟨hxl, hxr⟩
          simp only [List.mem_cons, not_or] at hxr
          exact ⟨⟨hxl, hxr.1⟩, hxr.2⟩
      · intro hcl id hid hidl
        rcases List.mem_cons.mp hid with h0 | hr
        · subst h0
          exact absurd ⟨by simp [hcl], hidl⟩ hcond
        · by_cases hxne : id = id0
          · subst hxne
            exact absurd ⟨by simp [hcl], hidl⟩ hcond
          · exact hclear hcl id hr ((hmem1 id).mpr ⟨hidl, hxne⟩)

theorem setInsert_mem (l : List String) (y x : String) :
    x ∈ setInsert l y ↔ x ∈ l ∨ x = y := by
  unfold setInsert
  by_cases h : y ∈ l
  · rw [if_pos h]
    constructor
    · exact Or.inl
    · rintro (hx | rfl)
      · exact hx
      · exact h
  · rw [if_neg h]
    simp

theorem foldl_setInsert_mem (ids : List String) :
    ∀ (l : List String) (x : String),
      x ∈ ids.foldl setInsert l ↔ x ∈ l ∨ x ∈ ids := by
  induction ids with
  | nil => simp
  | cons i rest ih =>
    intro l x
    rw [List.foldl_cons, ih, setInsert_mem]
    simp [or_assoc]

theorem setInsert_self (l : List String) (y : String) (h : y ∈ l) :
    setInsert l y = l := by
  unfold setInsert
  rw [if_pos h]

theorem compose_data_Bookmark (id : String) :
    (ComposeRawLocalId ObjType.Bookmark id).data = 'b' :: id.data := by
  simp [ComposeRawLocalId, string_data_append]

theorem compose_data_History (id : String) :
    (ComposeRawLocalId ObjType.History id).data = 'h' :: id.data := by
  simp [ComposeRawLocalId, string_data_append]

/-- For the tagged categories the composed mapping key is non-empty and
distinct from the not-synced-set key (whose record type string begins with
an upper-case letter). -/
theorem compose_ne_nsKey (c : ObjType) (hc : c ≠ ObjType.Unset) (id action : String) :
    ComposeRawLocalId c id ≠ notSyncedKey c action ∧ ComposeRawLocalId c id ≠ "" := by
  cases c with
  | Unset => exact absurd rfl hc
  | Bookmark =>
    constructor
    · intro h
      have hd := congrArg String.data h
      rw [compose_data_Bookmark] at hd
      rw [show (notSyncedKey ObjType.Bookmark action).data =
          'B' :: (("OOKMARKS" : String).data ++ action.data) from by
        simp [notSyncedKey, recordTypeStr, string_data_append]] at hd
      simp at hd
    · intro h
      have hd := congrArg String.data h
      rw [compose_data_Bookmark] at hd
      simp at hd
  | History =>
    constructor
    · intro h
      have hd := congrArg String.data h
      rw [compose_data_History] at hd
      rw [show (notSyncedKey ObjType.History action).data =
          'H' :: (("ISTORY_SITES" : String).data ++ action.data) from by
        simp [notSyncedKey, recordTypeStr, string_data_append]] at hd
      simp at hd
    · intro h
      have hd := congrArg String.data h
      rw [compose_data_History] at hd
      simp at hd

theorem nsKey_ne_empty (c : ObjType) (hc : c ≠ ObjType.Unset) (action : String) :
    notSyncedKey c action ≠ "" := by
  cases c with
  | Unset => exact absurd rfl hc
  | Bookmark =>
    intro h
    have hd := congrArg String.data h
    rw [show (notSyncedKey ObjType.Bookmark action).data =
        'B' :: (("OOKMARKS" : String).data ++ action.data) from by
      simp [notSyncedKey, recordTypeStr, string_data_append]] at hd
    simp at hd
  | History =>
    intro h
    have hd := congrArg String.data h
    rw [show (notSyncedKey ObjType.History action).data =
        'H' :: (("ISTORY_SITES" : String).data ++ action.data) from by
      simp [notSyncedKey, recordTypeStr, string_data_append]] at hd
    simp at hd

/-- C8: on the not-synced set (categories `Bookmark`/`History`):
`GetItems` returns the stored set and does not modify the store;
`AddItems` unions the given ids into the set, persists the result under
the composite key, and returns it; and adding an id already present
returns the set unchanged (hence with unchanged size). -/
theorem C8_theorem (st : Store) (c : ObjType) (action : String) (ids : List String)
    (existing : List String) (hc : c ≠ ObjType.Unset)
    (hdes : GetNotSyncedRecords st (notSyncedKey c action) = some existing) :
    SaveGetDeleteNotSyncedRecordsOnThread st c action ids NotSyncedRecordsOperation.GetItems =
      some (st, existing) ∧
    (∃ st2,
      SaveGetDeleteNotSyncedRecordsOnThread st c action ids NotSyncedRecordsOperation.AddItems =
        some (st2, ids.foldl setInsert existing) ∧
      (∀ x, x ∈ ids.foldl setInsert existing ↔ x ∈ existing ∨ x ∈ ids) ∧
      st2 (notSyncedKey c action) = some (SerializeList (ids.foldl setInsert existing))) ∧
    (∀ id, id ∈ existing →
      ∃ st2,
        SaveGetDeleteNotSyncedRecordsOnThread st c action [id] NotSyncedRecordsOperation.AddItems =
          some (st2, existing)) := by
  refine ⟨?_, ?_, ?_⟩
  · unfold SaveGetDeleteNotSyncedRecordsOnThread
    dsimp only
    rw [hdes]
  · refine ⟨((st.put (notSyncedKey c action)
      (SerializeList (ids.foldl setInsert existing))).put "" (notSyncedKey c action)), ?_, ?_, ?_⟩
    · unfold SaveGetDeleteNotSyncedRecordsOnThread
      dsimp only
      rw [hdes]
      rfl
    · exact fun x => foldl_setInsert_mem ids existing x
    · simp [Store.put, (nsKey_ne_empty c hc action)]
  · intro id hid
    refine ⟨((st.put (notSyncedKey c action)
      (SerializeList existing)).put "" (notSyncedKey c action)), ?_⟩
    unfold SaveGetDeleteNotSyncedRecordsOnThread
    dsimp only
    rw [hdes]
    dsimp only
    rw [show [id].foldl setInsert existing = existing from by
      rw [List.foldl_cons, List.foldl_nil, setInsert_self existing id hid]]
    rfl

/-- Witness for C8: the three conjuncts at a concrete store whose set
under `BOOKMARKS1` is `["a"]`. -/
theorem C8_witness :
    SaveGetDeleteNotSyncedRecordsOnThread (emptyStore.put "BOOKMARKS1" "[\"a\"]")
        ObjType.Bookmark "1" ["b2"] NotSyncedRecordsOperation.GetItems =
      some (emptyStore.put "BOOKMARKS1" "[\"a\"]", ["a"]) ∧
    (∃ st2,
      SaveGetDeleteNotSyncedRecordsOnThread (emptyStore.put "BOOKMARKS1" "[\"a\"]")
          ObjType.Bookmark "1" ["b2"] NotSyncedRecordsOperation.AddItems =
        some (st2, ["b2"].foldl setInsert ["a"]) ∧
      (∀ x, x ∈ ["b2"].foldl setInsert ["a"] ↔ x ∈ ["a"] ∨ x ∈ ["b2"]) ∧
      st2 (notSyncedKey ObjType.Bookmark "1") =
        some (SerializeList (["b2"].foldl setInsert ["a"]))) ∧
    (∀ id, id ∈ ["a"] →
      ∃ st2,
        SaveGetDeleteNotSyncedRecordsOnThread (emptyStore.put "BOOKMARKS1" "[\"a\"]")
            ObjType.Bookmark "1" [id] NotSyncedRecordsOperation.AddItems =
          some (st2, ["a"])) :=
  C8_theorem (emptyStore.put "BOOKMARKS1" "[\"a\"]") ObjType.Bookmark "1" ["b2"] ["a"]
    (by decide) (by decide)

/-- C7: a `DeleteItems` operation removes the given ids from the stored
not-synced set; when the action is the full-delete code (and no read of a
mapping record crashes) it additionally clears the forward mapping key of
every id actually removed; with any other action code every mapping
record is left exactly as it was. -/
theorem C7_theorem (st : Store) (c : ObjType) (action : String) (ids : List String)
    (existing : List String) (hc : c ≠ ObjType.Unset)
    (hdes : GetNotSyncedRecords st (notSyncedKey c action) = some existing) :
    (action = DELETE_RECORD →
      (∀ id ∈ ids, GetParsedDataByLocalId st c id true false false ≠ .crash) →
      ∃ st2 res,
        SaveGetDeleteNotSyncedRecordsOnThread st c action ids
          NotSyncedRecordsOperation.DeleteItems = some (st2, res) ∧
        (∀ x, x ∈ res ↔ x ∈ existing ∧ x ∉ ids) ∧
        (∀ id ∈ ids, id ∈ existing → st2 (ComposeRawLocalId c id) = none)) ∧
    (action ≠ DELETE_RECORD →
      ∃ st2 res,
        SaveGetDeleteNotSyncedRecordsOnThread st c action ids
          NotSyncedRecordsOperation.DeleteItems = some (st2, res) ∧
        (∀ x, x ∈ res ↔ x ∈ existing ∧ x ∉ ids) ∧
        (∀ id, st2 (ComposeRawLocalId c id) = st (ComposeRawLocalId c id))) := by
  constructor
  · intro ha hnc
    obtain ⟨res, st', hfold, hres, hle, hclr, _⟩ :=
      deleteFold c true ids existing st (fun _ => hnc)
    refine ⟨((st'.put (notSyncedKey c action) (SerializeList res)).put ""
      (notSyncedKey c action)), res, ?_, hres, ?_⟩
    · unfold SaveGetDeleteNotSyncedRecordsOnThread
      dsimp only
      rw [hdes]
      dsimp only
      rw [show (decide ((action = DELETE_RECORD : Prop))) = true from by simp [ha]]
      rw [hfold]
      rfl
    · intro id hid hidex
      have hck := compose_ne_nsKey c hc id action
      simp [Store.put, hck.1, hck.2, hclr rfl id hid hidex]
  · intro ha
    obtain ⟨res, st', hfold, hres, hle, _, hnocl⟩ :=
      deleteFold c false ids existing st (fun hcl => absurd hcl (by simp))
    have hst' : st' = st := hnocl rfl
    subst hst'
    refine ⟨((st'.put (notSyncedKey c action) (SerializeList res)).put ""
      (notSyncedKey c action)), res, ?_, hres, ?_⟩
    · unfold SaveGetDeleteNotSyncedRecordsOnThread
      dsimp only
      rw [hdes]
      dsimp only
      rw [show (decide ((action = DELETE_RECORD : Prop))) = false from by simp [ha]]
      rw [hfold]
      rfl
    · intro id
      have hck := compose_ne_nsKey c hc id action
      simp [Store.put, hck.1, hck.2]

/-- Witness for C7: both action cases on a store holding the set
`["a", "b2x"]` under the respective keys and a mapping record for the
bookmark local id `"a"`. -/
theorem C7_witness :
    (∃ st2 res,
      SaveGetDeleteNotSyncedRecordsOnThread
          ((emptyStore.put "BOOKMARKS2" "[\"a\"]").put "ba" (recordJson "o" "1" "v"))
          ObjType.Bookmark "2" ["a"] NotSyncedRecordsOperation.DeleteItems =
        some (st2, res) ∧
      (∀ x, x ∈ res ↔ x ∈ ["a"] ∧ x ∉ ["a"]) ∧
      (∀ id ∈ ["a"], id ∈ ["a"] →
        st2 (ComposeRawLocalId ObjType.Bookmark id) = none)) ∧
    (∃ st2 res,
      SaveGetDeleteNotSyncedRecordsOnThread
          ((emptyStore.put "BOOKMARKS0" "[\"a\"]").put "ba" (recordJson "o" "1" "v"))
          ObjType.Bookmark "0" ["a"] NotSyncedRecordsOperation.DeleteItems =
        some (st2, res) ∧
      (∀ x, x ∈ res ↔ x ∈ ["a"] ∧ x ∉ ["a"]) ∧
      (∀ id, st2 (ComposeRawLocalId ObjType.Bookmark id) =
        ((emptyStore.put "BOOKMARKS0" "[\"a\"]").put "ba" (recordJson "o" "1" "v"))
          (ComposeRawLocalId ObjType.Bookmark id))) :=
  ⟨(C7_theorem ((emptyStore.put "BOOKMARKS2" "[\"a\"]").put "ba" (recordJson "o" "1" "v"))
      ObjType.Bookmark "2" ["a"] ["a"] (by decide) (by decide)).1 rfl
      (by intro id hid; simp at hid; subst hid; decide),
    (C7_theorem ((emptyStore.put "BOOKMARKS0" "[\"a\"]").put "ba" (recordJson "o" "1" "v"))
      ObjType.Bookmark "0" ["a"] ["a"] (by decide) (by decide)).2 (by decide)⟩
